import Mathlib

/-!
Verification of the artifact acquisition pipeline of
`rust-analyzer/editors/code/src/net.ts`: release-metadata retrieval
(`fetchRelease`), streamed download with progress callbacks (`downloadFile`),
temporary-directory scoping (`withTempDir`), atomic cross-device-safe
placement (`moveFile`), and the orchestration (`download`).

The embedding is shallow: network and filesystem effects are passed in as
explicit parameters (the HTTP response for a URL, the outcome of the byte
stream, the outcome of the platform rename), and the functions return their
results together with the observable events (log entries, progress reports,
filesystem actions).  JavaScript numbers are modelled as exact rationals,
with NaN modelled as `none` of an `Option`.
-/

namespace Net

/-- A JSON value, as produced at runtime by `response.json()` in the source.
Numbers are restricted to integers (the only numeric field the pipeline
reads is the integral release `id`). -/
inductive Json where
  | null : Json
  | bool (b : Bool) : Json
  | num (n : Int) : Json
  | str (s : String) : Json
  | arr (elems : List Json) : Json
  | obj (fields : List (String × Json)) : Json
deriving Repr

/-- Field lookup in a list of JSON object fields: the first binding wins,
as for a JavaScript object literal read left to right. -/
def lookupFields : List (String × Json) → String → Option Json
  | [], _ => none
  | (k, v) :: rest, key => if k = key then some v else lookupFields rest key

/-- Property access `value[key]` on a JSON value: `undefined` (modelled as
`none`) unless the value is an object with that field. -/
def Json.lookup : Json → String → Option Json
  | .obj fields, key => lookupFields fields key
  | _, _ => none

/-- Reading a JSON value as a string, as the unchecked TypeScript coercion
would when later code uses the field as a string. -/
def Json.asString : Json → Option String
  | .str s => some s
  | _ => none

/-- Reading a JSON value as an integer. -/
def Json.asInt : Json → Option Int
  | .num n => some n
  | _ => none

/-- Reading a JSON value as an array of values. -/
def Json.asArr : Json → Option (List Json)
  | .arr elems => some elems
  | _ => none

/-- An HTTP response as observed by the source through `node-fetch`:
`ok`/`status` for the status check, `headers` for the `content-length`
lookup, `body` for the raw text read on error paths, `json` for the parsed
payload read on the success path of `fetchRelease`, and `chunks` for the
byte chunks delivered by the body stream of a file download. -/
structure HttpResponse where
  ok : Bool
  status : Nat
  headers : List (String × String)
  body : String
  json : Json
  chunks : List (List Nat)
deriving Repr

/-- `headers.get(key)`: the value of the header, or null (`none`) when the
header is absent.  Header names are compared literally; the source only
ever asks for the lowercase name `content-length`. -/
def headerGet : List (String × String) → String → Option String
  | [], _ => none
  | (k, v) :: rest, key => if k = key then some v else headerGet rest key

/-- A log entry emitted through the `log` utility of the missing `./util`
module.  Modelled from the spec: §9 directs that the module-level log be an
injected diagnostics collaborator with `debug` and `error` operations; an
error entry records the structured diagnostic payload the source passes to
`log.error` (request URL, status, headers, body). -/
inductive LogEvent where
  | debug (message : String) : LogEvent
  | errorFetch (requestUrl : String) (status : Nat)
      (headers : List (String × String)) (body : String) : LogEvent
  | errorDownload (status : Nat) (headers : List (String × String))
      (body : String) : LogEvent
  | errorMove (message : String) : LogEvent
  | errorCleanup : LogEvent
deriving Repr, DecidableEq

/-- The error thrown by `fetchRelease` or `downloadFile` on a non-success
HTTP status, or by a failed assertion: a JavaScript `Error` carrying only
its message string. -/
structure ThrownError where
  message : String
deriving Repr, DecidableEq

def GITHUB_API_ENDPOINT_URL : String := "https://api.github.com"
def OWNER : String := "rust-analyzer"
def REPO : String := "rust-analyzer"

/-- The request URL `fetchRelease` builds for a release tag. -/
def requestUrlFor (releaseTag : String) : String :=
  GITHUB_API_ENDPOINT_URL ++ "/repos/" ++ OWNER ++ "/" ++ REPO
    ++ "/releases/tags/" ++ releaseTag

/-- `fetchRelease(releaseTag)` (source lines 16–48).  The network is passed
in as `http`, mapping a request URL to its response.  On a non-ok response
the function logs the structured diagnostics and throws; on an ok response
it returns `response.json()` unchanged — the source performs an unchecked
cast from `any` to `GithubRelease`, which is the identity at runtime. -/
def fetchRelease (http : String → HttpResponse) (releaseTag : String) :
    List LogEvent × Except ThrownError Json :=
  let requestUrl := requestUrlFor releaseTag
  let response := http requestUrl
  if !response.ok then
    ([LogEvent.debug "Issuing request for released artifacts metadata to",
      LogEvent.errorFetch requestUrl response.status response.headers response.body],
     .error ⟨"Got response " ++ toString response.status
        ++ " when trying to fetch release info for " ++ releaseTag ++ " release"⟩)
  else
    ([LogEvent.debug "Issuing request for released artifacts metadata to"],
     .ok response.json)

/-- The runtime value of a `GithubRelease`: the unchecked cast on source
line 46 makes it whatever JSON object the server returned. -/
def GithubRelease := Json

/-- `release.name`, read through the unchecked coercion. -/
def GithubRelease.name (r : GithubRelease) : Option String :=
  (Json.lookup r "name").bind Json.asString

/-- `release.id`, read through the unchecked coercion. -/
def GithubRelease.id (r : GithubRelease) : Option Int :=
  (Json.lookup r "id").bind Json.asInt

/-- `release.published_at`, read through the unchecked coercion. -/
def GithubRelease.publishedAt (r : GithubRelease) : Option String :=
  (Json.lookup r "published_at").bind Json.asString

/-- `release.assets`, read through the unchecked coercion: the list of
asset objects, or `none` when the field is missing or not an array. -/
def GithubRelease.assets (r : GithubRelease) : Option (List Json) :=
  (Json.lookup r "assets").bind Json.asArr

/-- `asset.name` of one element of `release.assets`. -/
def assetName (a : Json) : Option String :=
  (Json.lookup a "name").bind Json.asString

/-- `asset.browser_download_url` of one element of `release.assets`. -/
def assetDownloadUrl (a : Json) : Option String :=
  (Json.lookup a "browser_download_url").bind Json.asString

/-- A nonempty list of decimal digit characters read as a natural number;
`none` when the list is empty or contains a non-digit. -/
def parseDigits (l : List Char) : Option Nat :=
  if l ≠ [] ∧ l.all Char.isDigit then
    some (l.foldl (fun n c => n * 10 + (c.toNat - 48)) 0)
  else none

/-- The JavaScript coercion `Number(s)` for a string, on the fragment
relevant to `content-length` values: the empty string coerces to 0, an
optionally signed string of decimal digits parses as that integer, and any
other string is NaN, modelled as `none`.  (Surrounding whitespace,
fractional, hexadecimal and exponent forms of `Number` are outside this
fragment; no header in the development uses them.) -/
def jsNumberOfString (s : String) : Option Rat :=
  match s.data with
  | [] => some 0
  | c :: rest =>
      if c = '-' then (parseDigits rest).map (fun n => -(n : Rat))
      else if c = '+' then (parseDigits rest).map (fun n => (n : Rat))
      else (parseDigits (c :: rest)).map (fun n => (n : Rat))

/-- `Number(res.headers.get("content-length"))` (source line 120): a missing
header gives `null`, and `Number(null)` is 0; a present header value is
coerced from its string.  `none` models NaN. -/
def jsNumber : Option String → Option Rat
  | none => some 0
  | some s => jsNumberOfString s

/-- Modelled from the spec: the `assert` utility of the missing `./util`
module.  §4.2 and §7 of the spec treat a failed sanity check as a fatal
precondition failure raised before streaming begins, so `assert cond msg`
throws an error carrying `msg` exactly when `cond` is false. -/
def utilAssert (cond : Bool) (msg : String) : Except ThrownError Unit :=
  if cond then .ok () else .error ⟨msg⟩

/-- How the response body stream behaves during `pipeline`: either it
delivers every chunk and ends cleanly, or it errors after delivering the
first `n` chunks (a network interruption or write error mid-stream). -/
inductive StreamOutcome where
  | success : StreamOutcome
  | failAfter (n : Nat) : StreamOutcome
deriving Repr, DecidableEq

/-- The chunks the body stream actually delivers under an outcome. -/
def deliveredChunks (res : HttpResponse) : StreamOutcome → List (List Nat)
  | .success => res.chunks
  | .failAfter n => res.chunks.take n

/-- The successive values of the mutable `readBytes` accumulator (source
lines 125–127): after each delivered chunk, the previous total plus the
chunk byte length. -/
def cumReads (acc : Nat) : List (List Nat) → List Nat
  | [] => []
  | c :: cs => (acc + c.length) :: cumReads (acc + c.length) cs

/-- The errors `downloadFile` can throw: a non-success HTTP status, a
failed content-length assertion, or a stream failure during `pipeline`. -/
inductive DlError where
  | remote (message : String) : DlError
  | assertFailed (message : String) : DlError
  | transfer : DlError
deriving Repr, DecidableEq

/-- Everything observable about one `downloadFile` run: the log entries,
the `(readBytes, totalBytes)` arguments of each `onProgress` call in order,
whether the destination file stream was ever created, the bytes written to
the destination file (`none` when it was never created), and the result. -/
structure DlTrace where
  logs : List LogEvent
  progress : List (Nat × Rat)
  fileCreated : Bool
  fileContent : Option (List Nat)
  result : Except DlError Unit
deriving Repr

/-- `downloadFile(url, destFilePath, mode, onProgress)` (source lines
105–139).  The response `res` is the answer of `fetch(url)` and `outcome`
is how its body stream behaves.  A non-ok response logs and throws before
anything else; then `totalBytes` is coerced from the `content-length`
header and asserted non-NaN before the destination file stream is created;
then the body is piped to the destination file, the `data` handler
accumulating `readBytes` and invoking `onProgress` once per chunk.  A
stream failure rejects the `pipeline` promise with the partial bytes
already written to the destination file. -/
def downloadFile (res : HttpResponse) (outcome : StreamOutcome) : DlTrace :=
  if !res.ok then
    { logs := [LogEvent.errorDownload res.status res.headers res.body],
      progress := [], fileCreated := false, fileContent := none,
      result := .error (.remote ("Got response " ++ toString res.status
        ++ " when trying to download a file.")) }
  else
    match jsNumber (headerGet res.headers "content-length") with
    | none =>
        { logs := [], progress := [], fileCreated := false, fileContent := none,
          result := .error (.assertFailed "Sanity check of content-length protocol") }
    | some totalBytes =>
        let delivered := deliveredChunks res outcome
        { logs := [LogEvent.debug "Downloading file"],
          progress := (cumReads 0 delivered).map (fun rb => (rb, totalBytes)),
          fileCreated := true,
          fileContent := some delivered.flatten,
          result := match outcome with
            | .success => .ok ()
            | .failAfter _ => .error .transfer }

/-- A platform error as surfaced by the Node filesystem promises API: an
`err` object whose `code` distinguishes the cross-device case. -/
structure PlatformError where
  code : String
deriving Repr, DecidableEq

/-- The contents of the two paths `moveFile` touches: the staged source
file and the destination.  `none` means the path is absent. -/
structure MoveState where
  src : Option (List Nat)
  dest : Option (List Nat)
deriving Repr, DecidableEq

/-- A filesystem call `moveFile` issues, in order. -/
inductive FsAction where
  | renameCall : FsAction
  | copyFileCall : FsAction
  | unlinkCall : FsAction
deriving Repr, DecidableEq

/-- `moveFile(src, dest)` (source lines 157–170).  `renameErr` is how the
platform answers the `rename` attempt: `none` for success, otherwise the
error object it rejects with.  On success the file moves in one step.  On
an `EXDEV` error the source falls back to `copyFile` then `unlink` (both
modelled as succeeding, as the source has no further handling for them).
Any other error is logged and rethrown unchanged, touching nothing. -/
def moveFile (st : MoveState) (renameErr : Option PlatformError) :
    MoveState × List FsAction × List LogEvent × Except PlatformError Unit :=
  match renameErr with
  | none =>
      ({ src := none, dest := st.src }, [.renameCall], [], .ok ())
  | some err =>
      if err.code = "EXDEV" then
        ({ src := none, dest := st.src },
         [.renameCall, .copyFileCall, .unlinkCall], [], .ok ())
      else
        (st, [.renameCall],
         [LogEvent.errorMove "Failed to rename the file"], .error err)

/-- An observable step of `withTempDir` around its scope body. -/
inductive TempDirEvent where
  | rmdirIssued (dir : String) : TempDirEvent
  | cleanupErrorLogged : TempDirEvent
deriving Repr, DecidableEq

/-- `withTempDir(scope)` (source lines 141–155).  `tempDir` is the fresh
directory `mkdtemp` created under the resolved system temporary root, and
`rmdirOk` is whether the recursive removal in the `finally` block succeeds.
The scope body runs first; the `finally` block then always issues the
removal, catching (and only logging) its failure, so the value or error of
the body is returned unchanged. -/
def withTempDir {E A : Type} (tempDir : String)
    (scope : String → Except E A) (rmdirOk : Bool) :
    Except E A × List TempDirEvent :=
  (scope tempDir,
   TempDirEvent.rmdirIssued tempDir ::
     (if rmdirOk then [] else [TempDirEvent.cleanupErrorLogged]))

/-- The successive `(newPercentage, increment)` pairs reported to the
progress surface (source lines 82–91): starting from a `lastPercentage` of
0, each `onProgress(readBytes, totalBytes)` call computes `newPercentage =
readBytes / totalBytes * 100`, reports the increment `newPercentage -
lastPercentage`, and updates `lastPercentage`. -/
def reportLoop (lastPercentage : Rat) : List (Nat × Rat) → List (Rat × Rat)
  | [] => []
  | (readBytes, totalBytes) :: rest =>
      (((readBytes : Rat) / totalBytes) * 100,
       ((readBytes : Rat) / totalBytes) * 100 - lastPercentage) ::
        reportLoop (((readBytes : Rat) / totalBytes) * 100) rest

/-- The environment one `download` invocation runs against: the response to
fetching `opts.url`, the behaviour of its body stream, the platform answer
to the final rename, and what the destination path held beforehand. -/
structure DownloadEnv where
  res : HttpResponse
  outcome : StreamOutcome
  renameErr : Option PlatformError
  destBefore : Option (List Nat)
deriving Repr

/-- An error propagated out of `download`: either the download step threw,
or the final placement threw. -/
inductive DownloadError where
  | dl (e : DlError) : DownloadError
  | placement (e : PlatformError) : DownloadError
deriving Repr, DecidableEq

/-- Everything observable after one `download` invocation: the contents of
the destination path, the contents of the staged file inside the temporary
workspace (before the workspace is torn down), the `(percentage,
increment)` reports forwarded to the progress surface, and the result. -/
structure DownloadEndState where
  destAfter : Option (List Nat)
  staged : Option (List Nat)
  reports : List (Rat × Rat)
  result : Except DownloadError Unit
deriving Repr

/-- The rest of the scope body of `download` once `downloadFile` has
produced the trace `tr` of the staged temp file: on a download error the
error propagates and the destination is untouched; on success `moveFile`
places the staged content at the destination.  Exceptions are modelled as
the `result` field rather than by an early exit, so that the state of the
destination path stays observable on every path. -/
def downloadScopeAux (env : DownloadEnv) (tr : DlTrace) : DownloadEndState :=
  match tr.result with
  | .error e =>
      { destAfter := env.destBefore, staged := tr.fileContent,
        reports := reportLoop 0 tr.progress, result := .error (.dl e) }
  | .ok () =>
      { destAfter :=
          (moveFile { src := tr.fileContent, dest := env.destBefore }
            env.renameErr).1.dest,
        staged :=
          (moveFile { src := tr.fileContent, dest := env.destBefore }
            env.renameErr).1.src,
        reports := reportLoop 0 tr.progress,
        result :=
          match (moveFile { src := tr.fileContent, dest := env.destBefore }
              env.renameErr).2.2.2 with
          | .ok () => .ok ()
          | .error e => .error (.placement e) }

/-- The scope body `download` passes to `withTempDir` (source lines 72–96):
download into the staged temp file, forwarding progress percentages through
`reportLoop`, then move the staged file to the real destination. -/
def downloadScope (env : DownloadEnv) : DownloadEndState :=
  downloadScopeAux env (downloadFile env.res env.outcome)

/-- `download(opts)` (source lines 70–97): the scope body above run inside
`withTempDir`.  The body never throws in the model (its failures live in
the `result` field), so the `Except` layer of `withTempDir` is instantiated
at `Empty`. -/
def download (env : DownloadEnv) (tempDir : String) (rmdirOk : Bool) :
    DownloadEndState × List TempDirEvent :=
  let r := withTempDir tempDir
    (fun _ => (Except.ok (downloadScope env) : Except Empty DownloadEndState))
    rmdirOk
  (match r.1 with
   | .ok st => st
   | .error e => e.elim, r.2)

/-! ### Concrete test fixtures -/

/-- An ok response with no `content-length` header delivering two bytes. -/
def resNoContentLength : HttpResponse :=
  { ok := true, status := 200,
    headers := [("content-type", "application/octet-stream")],
    body := "", json := Json.null, chunks := [[104, 105]] }

/-- An ok response whose `content-length` header is present but does not
coerce to a number. -/
def resNanContentLength : HttpResponse :=
  { ok := true, status := 200, headers := [("content-length", "abc")],
    body := "", json := Json.null, chunks := [[7]] }

/-- An ok response with `content-length` 3 delivering three bytes in one
chunk. -/
def resThreeBytes : HttpResponse :=
  { ok := true, status := 200, headers := [("content-length", "3")],
    body := "", json := Json.null, chunks := [[1, 2, 3]] }

/-- An ok response with `content-length` 3 delivering two chunks of one and
two bytes. -/
def resTwoChunks : HttpResponse :=
  { ok := true, status := 200, headers := [("content-length", "3")],
    body := "", json := Json.null, chunks := [[10], [20, 30]] }

/-- A fully successful download environment for `resThreeBytes`. -/
def envThreeBytes : DownloadEnv :=
  { res := resThreeBytes, outcome := .success, renameErr := none,
    destBefore := none }

/-- A fully successful download environment for `resTwoChunks`. -/
def envTwoChunks : DownloadEnv :=
  { res := resTwoChunks, outcome := .success, renameErr := none,
    destBefore := none }

/-- A server answering every request with HTTP 404. -/
def http404 : String → HttpResponse :=
  fun _ =>
    { ok := false, status := 404,
      headers := [("content-type", "application/json")],
      body := "Not Found", json := Json.null, chunks := [] }

/-- The single asset object of the spec example payload. -/
def releaseAsset : Json := Json.obj
  [("name", Json.str "tool-linux"),
   ("browser_download_url", Json.str "https://x/tool-linux")]

/-- The spec example payload for `fetchRelease("v1.2.3")`. -/
def releaseJson : Json := Json.obj
  [("name", Json.str "v1.2.3"), ("id", Json.num 42),
   ("published_at", Json.str "2021-01-01T00:00:00Z"),
   ("assets", Json.arr [releaseAsset])]

/-- A server answering every request successfully with `releaseJson`. -/
def releaseServer : String → HttpResponse :=
  fun _ =>
    { ok := true, status := 200, headers := [], body := "",
      json := releaseJson, chunks := [] }

/-- A payload missing the expected `id` field. -/
def noIdJson : Json := Json.obj
  [("name", Json.str "v1"),
   ("published_at", Json.str "2021-01-01T00:00:00Z"),
   ("assets", Json.arr [])]

/-- A server answering every request successfully with `noIdJson`. -/
def noIdServer : String → HttpResponse :=
  fun _ =>
    { ok := true, status := 200, headers := [], body := "",
      json := noIdJson, chunks := [] }

/-- A staged file of two bytes next to an occupied destination. -/
def moveFixture : MoveState :=
  { src := some [1, 2], dest := some [9] }

/-! ### Helper lemmas -/

theorem cumReads_length (acc : Nat) (cs : List (List Nat)) :
    (cumReads acc cs).length = cs.length := by
  induction cs generalizing acc with
  | nil => rfl
  | cons c cs ih => simp [cumReads, ih]

theorem cumReads_head_ge (acc : Nat) (cs : List (List Nat)) :
    ∀ x ∈ (cumReads acc cs).head?, acc ≤ x := by
  cases cs with
  | nil => intro x hx; simp [cumReads] at hx
  | cons c cs =>
      intro x hx
      simp [cumReads] at hx
      omega

theorem cumReads_chain (acc : Nat) (cs : List (List Nat)) :
    List.Chain' (fun a b => a ≤ b) (cumReads acc cs) := by
  induction cs generalizing acc with
  | nil => simp [cumReads]
  | cons c cs ih =>
      simp only [cumReads]
      exact List.chain'_cons'.mpr ⟨fun y hy => cumReads_head_ge _ _ y hy, ih _⟩

theorem cumReads_getLast_mem (acc : Nat) (cs : List (List Nat)) :
    ∀ x ∈ (cumReads acc cs).getLast?, x = acc + (cs.map List.length).sum := by
  induction cs generalizing acc with
  | nil => intro x hx; simp [cumReads] at hx
  | cons c cs ih =>
      intro x hx
      cases cs with
      | nil =>
          simp [cumReads] at hx
          simp [hx.symm]
      | cons c2 cs2 =>
          have hx2 : x ∈ (cumReads (acc + c.length) (c2 :: cs2)).getLast? := by
            rw [show cumReads acc (c :: c2 :: cs2)
                  = (acc + c.length) :: (acc + c.length + c2.length)
                      :: cumReads (acc + c.length + c2.length) cs2 from rfl,
                List.getLast?_cons_cons] at hx
            exact hx
          have h := ih (acc + c.length) x hx2
          simp only [List.map_cons, List.sum_cons] at h ⊢
          omega

theorem reportLoop_head (acc : Rat) (l : List (Nat × Rat)) :
    ∀ p ∈ (reportLoop acc l).head?, p.2 = p.1 - acc := by
  cases l with
  | nil => intro p hp; simp [reportLoop] at hp
  | cons q rest =>
      intro p hp
      cases q with
      | mk readBytes totalBytes =>
          simp [reportLoop] at hp
          simp [← hp]

theorem reportLoop_chain (acc : Rat) (l : List (Nat × Rat)) :
    List.Chain' (fun a b => b.2 = b.1 - a.1) (reportLoop acc l) := by
  induction l generalizing acc with
  | nil => simp [reportLoop]
  | cons q rest ih =>
      cases q with
      | mk readBytes totalBytes =>
          simp only [reportLoop]
          refine List.chain'_cons'.mpr ⟨fun y hy => ?_, ih _⟩
          exact reportLoop_head _ _ y hy

theorem reportLoop_sum_mem (acc : Rat) (l : List (Nat × Rat)) :
    ∀ x ∈ ((reportLoop acc l).map Prod.fst).getLast?,
      ((reportLoop acc l).map Prod.snd).sum = x - acc := by
  induction l generalizing acc with
  | nil => intro x hx; simp [reportLoop] at hx
  | cons q rest ih =>
      intro x hx
      cases q with
      | mk readBytes totalBytes =>
          cases rest with
          | nil =>
              simp [reportLoop] at hx ⊢
              simp [← hx]
          | cons q2 rest2 =>
              cases q2 with
              | mk rb2 tb2 =>
                  have hx2 : x ∈ ((reportLoop (((readBytes : Rat) / totalBytes) * 100)
                      ((rb2, tb2) :: rest2)).map Prod.fst).getLast? := by
                    rw [show (reportLoop acc
                            ((readBytes, totalBytes) :: (rb2, tb2) :: rest2)).map Prod.fst
                          = (((readBytes : Rat) / totalBytes) * 100)
                              :: (((rb2 : Rat) / tb2) * 100)
                              :: ((reportLoop (((rb2 : Rat) / tb2) * 100) rest2).map
                                    Prod.fst) from rfl,
                        List.getLast?_cons_cons] at hx
                    exact hx
                  have h := ih (((readBytes : Rat) / totalBytes) * 100) x hx2
                  rw [show (reportLoop acc
                          ((readBytes, totalBytes) :: (rb2, tb2) :: rest2)).map Prod.snd
                        = (((readBytes : Rat) / totalBytes) * 100 - acc)
                            :: ((reportLoop (((readBytes : Rat) / totalBytes) * 100)
                                  ((rb2, tb2) :: rest2)).map Prod.snd) from rfl,
                      List.sum_cons, h]
                  ring

theorem reportLoop_empty_iff (acc : Rat) (l : List (Nat × Rat)) :
    reportLoop acc l = [] ↔ l = [] := by
  cases l with
  | nil => simp [reportLoop]
  | cons q rest => cases q with
      | mk rb tb => simp [reportLoop]

theorem downloadFile_ok_eq (res : HttpResponse) (outcome : StreamOutcome) (t : Rat)
    (hok : res.ok = true)
    (ht : jsNumber (headerGet res.headers "content-length") = some t) :
    downloadFile res outcome =
      { logs := [LogEvent.debug "Downloading file"],
        progress := (cumReads 0 (deliveredChunks res outcome)).map (fun rb => (rb, t)),
        fileCreated := true,
        fileContent := some (deliveredChunks res outcome).flatten,
        result := match outcome with
          | .success => .ok ()
          | .failAfter _ => .error .transfer } := by
  unfold downloadFile
  rw [hok, ht]
  rfl

theorem downloadFile_assert_eq (res : HttpResponse) (outcome : StreamOutcome)
    (hok : res.ok = true)
    (ht : jsNumber (headerGet res.headers "content-length") = none) :
    downloadFile res outcome =
      { logs := [], progress := [], fileCreated := false, fileContent := none,
        result := .error (.assertFailed "Sanity check of content-length protocol") } := by
  unfold downloadFile
  rw [hok, ht]
  rfl

theorem downloadFile_remote_eq (res : HttpResponse) (outcome : StreamOutcome)
    (hok : res.ok = false) :
    downloadFile res outcome =
      { logs := [LogEvent.errorDownload res.status res.headers res.body],
        progress := [], fileCreated := false, fileContent := none,
        result := .error (.remote ("Got response " ++ toString res.status
          ++ " when trying to download a file.")) } := by
  unfold downloadFile
  rw [hok]
  rfl

theorem download_fst (env : DownloadEnv) (tempDir : String) (rmdirOk : Bool) :
    (download env tempDir rmdirOk).1 = downloadScope env := rfl

theorem downloadScopeAux_reports (env : DownloadEnv) (tr : DlTrace) :
    (downloadScopeAux env tr).reports = reportLoop 0 tr.progress := by
  unfold downloadScopeAux
  split
  · rfl
  · rfl

theorem downloadScope_reports (env : DownloadEnv) :
    (downloadScope env).reports
      = reportLoop 0 (downloadFile env.res env.outcome).progress :=
  downloadScopeAux_reports env (downloadFile env.res env.outcome)

/-! ### Claim theorems -/

/-- C4: `moveFile` always starts with a rename attempt; it falls back to
copying the staged contents to the destination and deleting the staged file
exactly when the platform reports a cross-device `EXDEV` error, after which
the destination holds the staged content and the staged file no longer
exists; any other rename error is propagated unchanged to the caller with
both paths untouched. -/
theorem moveFile_spec (st : MoveState) (re : Option PlatformError) :
    ((moveFile st re).2.1.head? = some FsAction.renameCall) ∧
    (FsAction.copyFileCall ∈ (moveFile st re).2.1
      ↔ ∃ e, re = some e ∧ e.code = "EXDEV") ∧
    (∀ e, re = some e → e.code = "EXDEV" →
      (moveFile st re).1.dest = st.src ∧ (moveFile st re).1.src = none ∧
      (moveFile st re).2.1
        = [FsAction.renameCall, FsAction.copyFileCall, FsAction.unlinkCall] ∧
      (moveFile st re).2.2.2 = Except.ok ()) ∧
    (∀ e, re = some e → ¬ e.code = "EXDEV" →
      (moveFile st re).2.2.2 = Except.error e ∧ (moveFile st re).1 = st ∧
      FsAction.copyFileCall ∉ (moveFile st re).2.1) ∧
    (re = none →
      (moveFile st re).1.dest = st.src ∧ (moveFile st re).1.src = none ∧
      (moveFile st re).2.2.2 = Except.ok ()) := by
  cases re with
  | none => simp [moveFile]
  | some e =>
      by_cases hc : e.code = "EXDEV"
      · simp [moveFile, hc]
      · simp [moveFile, hc]

/-- Witness for C4: on a staged two-byte file with an `EXDEV` rename
failure, the fallback runs and the file ends up at the destination. -/
theorem moveFile_spec_witness :
    (moveFile moveFixture (some ⟨"EXDEV"⟩)).1.dest = some [1, 2] ∧
    (moveFile moveFixture (some ⟨"EXDEV"⟩)).1.src = none ∧
    (moveFile moveFixture (some ⟨"EXDEV"⟩)).2.1
      = [FsAction.renameCall, FsAction.copyFileCall, FsAction.unlinkCall] ∧
    (moveFile moveFixture (some ⟨"EXDEV"⟩)).2.2.2 = Except.ok () := by
  have h := moveFile_spec moveFixture (some ⟨"EXDEV"⟩)
  exact h.2.2.1 ⟨"EXDEV"⟩ rfl rfl

/-- C6: `withTempDir` always issues the recursive removal of its directory
after the scope body has finished, hands back exactly the scope body result
or error, and a removal failure is only logged, never propagated. -/
theorem withTempDir_spec {E A : Type} (tempDir : String)
    (scope : String → Except E A) (rmdirOk : Bool) :
    (withTempDir tempDir scope rmdirOk).1 = scope tempDir ∧
    TempDirEvent.rmdirIssued tempDir ∈ (withTempDir tempDir scope rmdirOk).2 ∧
    (rmdirOk = false →
      TempDirEvent.cleanupErrorLogged ∈ (withTempDir tempDir scope rmdirOk).2) := by
  refine ⟨rfl, ?_, ?_⟩
  · simp [withTempDir]
  · intro h
    simp [withTempDir, h]

/-- Witness for C6: a failing scope body with a failing removal still gets
its own error back, with the removal issued and its failure logged. -/
theorem withTempDir_spec_witness :
    (withTempDir "/tmp/rust-analyzerAB12" (fun _ => (Except.error 7 : Except Nat Nat))
        false).1 = Except.error 7 ∧
    TempDirEvent.rmdirIssued "/tmp/rust-analyzerAB12"
      ∈ (withTempDir "/tmp/rust-analyzerAB12"
          (fun _ => (Except.error 7 : Except Nat Nat)) false).2 ∧
    TempDirEvent.cleanupErrorLogged
      ∈ (withTempDir "/tmp/rust-analyzerAB12"
          (fun _ => (Except.error 7 : Except Nat Nat)) false).2 := by
  have h := withTempDir_spec "/tmp/rust-analyzerAB12"
    (fun _ => (Except.error 7 : Except Nat Nat)) false
  exact ⟨h.1, h.2.1, h.2.2 rfl⟩

/-- C7: on a non-success HTTP status, `fetchRelease` throws an error whose
message embeds the status code, emits a diagnostic log entry carrying the
request URL, status, headers and body, and returns no release metadata. -/
theorem fetchRelease_error_spec (http : String → HttpResponse) (tag : String)
    (hne : (http (requestUrlFor tag)).ok = false) :
    (fetchRelease http tag).2 = Except.error
      ⟨"Got response " ++ toString (http (requestUrlFor tag)).status
        ++ " when trying to fetch release info for " ++ tag ++ " release"⟩ ∧
    LogEvent.errorFetch (requestUrlFor tag) (http (requestUrlFor tag)).status
        (http (requestUrlFor tag)).headers (http (requestUrlFor tag)).body
      ∈ (fetchRelease http tag).1 ∧
    ∀ j, ¬ (fetchRelease http tag).2 = Except.ok j := by
  simp [fetchRelease, hne]

/-- Witness for C7: a 404 server makes `fetchRelease` fail with a message
embedding 404, and log the URL, status, headers and body. -/
theorem fetchRelease_error_spec_witness :
    (fetchRelease http404 "v9.9.9").2 = Except.error
      ⟨"Got response 404 when trying to fetch release info for v9.9.9 release"⟩ ∧
    LogEvent.errorFetch (requestUrlFor "v9.9.9") 404
        [("content-type", "application/json")] "Not Found"
      ∈ (fetchRelease http404 "v9.9.9").1 := by
  have h := fetchRelease_error_spec http404 "v9.9.9" rfl
  exact ⟨h.1, h.2.1⟩

/-- C8: against a server answering with the example payload,
`fetchRelease("v1.2.3")` returns release metadata whose `id` is 42 and
whose assets are exactly one asset named `tool-linux`. -/
theorem fetchRelease_example :
    (fetchRelease releaseServer "v1.2.3").2 = Except.ok releaseJson ∧
    GithubRelease.id releaseJson = some 42 ∧
    (GithubRelease.assets releaseJson).map (fun as => as.map assetName)
      = some [some "tool-linux"] := by
  refine ⟨rfl, rfl, rfl⟩

/-- C2 counterexample: with the `content-length` header absent, the
download does not fail — `Number(null)` coerces to 0, the sanity assertion
passes, the destination file is created and the body bytes are written. -/
theorem downloadFile_absent_header_proceeds :
    (downloadFile resNoContentLength StreamOutcome.success).result = Except.ok () ∧
    (downloadFile resNoContentLength StreamOutcome.success).fileCreated = true ∧
    (downloadFile resNoContentLength StreamOutcome.success).fileContent
      = some [104, 105] := by
  refine ⟨rfl, rfl, rfl⟩

/-- C2 amended: the sanity assertion fails — before the destination file is
created and before any bytes are written — exactly when the response has a
`content-length` header whose value coerces to NaN; in particular an absent
header coerces to 0 and streaming proceeds. -/
theorem downloadFile_assert_iff (res : HttpResponse) (outcome : StreamOutcome)
    (hok : res.ok = true) :
    ((downloadFile res outcome).result
        = Except.error (DlError.assertFailed "Sanity check of content-length protocol")
      ↔ jsNumber (headerGet res.headers "content-length") = none) ∧
    (jsNumber (headerGet res.headers "content-length") = none →
      (downloadFile res outcome).fileCreated = false ∧
      (downloadFile res outcome).fileContent = none ∧
      (downloadFile res outcome).progress = []) ∧
    (headerGet res.headers "content-length" = none →
      ¬ (downloadFile res outcome).result
          = Except.error (DlError.assertFailed "Sanity check of content-length protocol")) := by
  cases hjs : jsNumber (headerGet res.headers "content-length") with
  | none =>
      rw [downloadFile_assert_eq res outcome hok hjs]
      refine ⟨by simp, fun _ => ⟨rfl, rfl, rfl⟩, fun habs => ?_⟩
      rw [habs] at hjs
      simp [jsNumber] at hjs
  | some t =>
      rw [downloadFile_ok_eq res outcome t hok hjs]
      refine ⟨⟨fun h => ?_, fun h => by simp at h⟩, fun h => by simp at h,
        fun _ h => ?_⟩
      · cases outcome <;> simp_all
      · cases outcome <;> simp_all

/-- Witness for C2 amended: a present non-numeric `content-length` value
coerces to NaN and the assertion fires. -/
theorem downloadFile_assert_iff_witness :
    jsNumber (headerGet resNanContentLength.headers "content-length") = none ∧
    (downloadFile resNanContentLength StreamOutcome.success).result
      = Except.error (DlError.assertFailed "Sanity check of content-length protocol") := by
  have h := downloadFile_assert_iff resNanContentLength StreamOutcome.success rfl
  exact ⟨by decide, h.1.mpr (by decide)⟩

/-- C10: when the `content-length` header is present but its value coerces
to NaN, the sanity assertion throws before the destination file stream is
created: the file is never created, no bytes are written, and no progress
callback runs. -/
theorem downloadFile_nan_assert (res : HttpResponse) (outcome : StreamOutcome)
    (s : String) (hok : res.ok = true)
    (hs : headerGet res.headers "content-length" = some s)
    (hnan : jsNumberOfString s = none) :
    (downloadFile res outcome).result
      = Except.error (DlError.assertFailed "Sanity check of content-length protocol") ∧
    (downloadFile res outcome).fileCreated = false ∧
    (downloadFile res outcome).fileContent = none ∧
    (downloadFile res outcome).progress = [] := by
  have hjs : jsNumber (headerGet res.headers "content-length") = none := by
    rw [hs]
    exact hnan
  rw [downloadFile_assert_eq res outcome hok hjs]
  exact ⟨rfl, rfl, rfl, rfl⟩

/-- Witness for C10: the header value `abc` coerces to NaN and the
assertion fires with nothing written. -/
theorem downloadFile_nan_assert_witness :
    (downloadFile resNanContentLength StreamOutcome.success).result
      = Except.error (DlError.assertFailed "Sanity check of content-length protocol") ∧
    (downloadFile resNanContentLength StreamOutcome.success).fileCreated = false ∧
    (downloadFile resNanContentLength StreamOutcome.success).fileContent = none ∧
    (downloadFile resNanContentLength StreamOutcome.success).progress = [] :=
  downloadFile_nan_assert resNanContentLength StreamOutcome.success "abc"
    rfl rfl (by decide)

/-- C5: for a download whose response is ok with a numeric `content-length`
of `t`, `onProgress` runs exactly once per delivered chunk with the
cumulative byte count as first argument — non-decreasing across calls — and
`t` as constant second argument; and on a successful download that
delivered exactly `t` bytes, the final call reports `t` bytes read. -/
theorem downloadFile_progress_spec (res : HttpResponse) (outcome : StreamOutcome)
    (t : Rat) (hok : res.ok = true)
    (ht : jsNumber (headerGet res.headers "content-length") = some t) :
    (downloadFile res outcome).progress.length
      = (deliveredChunks res outcome).length ∧
    (∀ p ∈ (downloadFile res outcome).progress, p.2 = t) ∧
    List.Chain' (fun a b => a.1 ≤ b.1) (downloadFile res outcome).progress ∧
    (outcome = StreamOutcome.success →
      ((res.chunks.map List.length).sum : Rat) = t →
      ∀ p ∈ (downloadFile res outcome).progress.getLast?, (p.1 : Rat) = t) := by
  rw [downloadFile_ok_eq res outcome t hok ht]
  refine ⟨?_, ?_, ?_, ?_⟩
  · simp [cumReads_length]
  · intro p hp
    simp only [List.mem_map] at hp
    obtain ⟨rb, _, hrb⟩ := hp
    simp [← hrb]
  · show List.Chain' (fun a b => a.1 ≤ b.1)
      ((cumReads 0 (deliveredChunks res outcome)).map (fun rb => (rb, t)))
    rw [List.chain'_map]
    exact cumReads_chain 0 _
  · intro hsucc hsum p hp
    subst hsucc
    simp only [deliveredChunks] at hp
    rw [show ((cumReads 0 res.chunks).map (fun rb => (rb, t))).getLast?
          = ((cumReads 0 res.chunks).getLast?).map (fun rb => (rb, t))
          from List.getLast?_map _ _] at hp
    obtain ⟨rb, hrb, hfb⟩ := Option.map_eq_some'.mp hp
    have := cumReads_getLast_mem 0 res.chunks rb hrb
    rw [← hfb]
    simp only [Nat.zero_add] at this
    rw [this]
    exact hsum

/-- Witness for C5: two chunks of one and two bytes under `content-length`
3 give two ordered calls ending at 3 of 3 bytes. -/
theorem downloadFile_progress_spec_witness :
    resTwoChunks.ok = true ∧
    jsNumber (headerGet resTwoChunks.headers "content-length") = some 3 ∧
    ∀ p ∈ (downloadFile resTwoChunks StreamOutcome.success).progress.getLast?,
      (p.1 : Rat) = 3 :=
  ⟨rfl, by decide,
    (downloadFile_progress_spec resTwoChunks StreamOutcome.success 3 rfl
      (by decide)).2.2.2 rfl (by decide)⟩

/-- C1: the destination path never observes a partial download — when
`download` succeeds the destination holds the complete body (all chunks
concatenated), and on any failure (non-ok response, failed sanity check,
stream interruption, or a fatal placement error) the destination is exactly
what it was before. -/
theorem download_dest_atomic (env : DownloadEnv) (tempDir : String)
    (rmdirOk : Bool) :
    ((download env tempDir rmdirOk).1.result = Except.ok () →
      (download env tempDir rmdirOk).1.destAfter = some env.res.chunks.flatten) ∧
    (∀ e, (download env tempDir rmdirOk).1.result = Except.error e →
      (download env tempDir rmdirOk).1.destAfter = env.destBefore) := by
  rw [download_fst]
  unfold downloadScope downloadScopeAux
  cases hok : env.res.ok with
  | false =>
      rw [downloadFile_remote_eq env.res env.outcome hok]
      exact ⟨fun h => by simp at h, fun e _ => rfl⟩
  | true =>
      cases hjs : jsNumber (headerGet env.res.headers "content-length") with
      | none =>
          rw [downloadFile_assert_eq env.res env.outcome hok hjs]
          exact ⟨fun h => by simp at h, fun e _ => rfl⟩
      | some t =>
          rw [downloadFile_ok_eq env.res env.outcome t hok hjs]
          cases houtcome : env.outcome with
          | failAfter n => exact ⟨fun h => by simp at h, fun e _ => rfl⟩
          | success =>
              cases hre : env.renameErr with
              | none => simp [moveFile, deliveredChunks]
              | some err =>
                  by_cases hc : err.code = "EXDEV"
                  · simp [moveFile, hc, deliveredChunks]
                  · simp [moveFile, hc, deliveredChunks]

/-- Witness for C1: a fully successful three-byte download places exactly
those bytes at the previously absent destination. -/
theorem download_dest_atomic_witness :
    (download envThreeBytes "/tmp/rust-analyzerCD34" true).1.result
      = Except.ok () ∧
    (download envThreeBytes "/tmp/rust-analyzerCD34" true).1.destAfter
      = some [1, 2, 3] :=
  ⟨rfl, (download_dest_atomic envThreeBytes "/tmp/rust-analyzerCD34" true).1 rfl⟩

/-- C9: the progress increments reported by `download` telescope — each
report carries the difference between the current percentage and the
previously reported one, starting from 0, so their sum equals the last
reported percentage. -/
theorem download_increments_telescope (env : DownloadEnv) (tempDir : String)
    (rmdirOk : Bool) :
    (((download env tempDir rmdirOk).1.reports).map Prod.snd).sum
      = (((download env tempDir rmdirOk).1.reports).map Prod.fst).getLast?.getD 0 ∧
    List.Chain' (fun a b => b.2 = b.1 - a.1)
      ((download env tempDir rmdirOk).1.reports) ∧
    (∀ p ∈ ((download env tempDir rmdirOk).1.reports).head?, p.2 = p.1 - 0) := by
  rw [download_fst, downloadScope_reports]
  refine ⟨?_, reportLoop_chain 0 _, reportLoop_head 0 _⟩
  cases hL : ((reportLoop 0 (downloadFile env.res env.outcome).progress).map
      Prod.fst).getLast? with
  | none =>
      have hnil : reportLoop 0 (downloadFile env.res env.outcome).progress = [] := by
        have := List.getLast?_eq_none_iff.mp hL
        exact List.map_eq_nil_iff.mp this
      rw [hnil]
      simp
  | some x =>
      rw [Option.getD_some]
      have h := reportLoop_sum_mem 0 _ x hL
      rw [h]
      ring

/-- Witness for C9: on the two-chunk download the increments sum to the
final reported percentage. -/
theorem download_increments_telescope_witness :
    (((download envTwoChunks "/tmp/rust-analyzerEF56" true).1.reports).map
        Prod.snd).sum
      = (((download envTwoChunks "/tmp/rust-analyzerEF56" true).1.reports).map
          Prod.fst).getLast?.getD 0 :=
  (download_increments_telescope envTwoChunks "/tmp/rust-analyzerEF56" true).1

/-- C3 counterexample: a successful response whose payload is missing the
expected `id` field makes `fetchRelease` return the partially-populated
structure — its `id` reads as undefined — instead of failing with an
error. -/
theorem fetchRelease_no_validation_cex :
    (fetchRelease noIdServer "v1").2 = Except.ok noIdJson ∧
    GithubRelease.id noIdJson = none ∧
    ∀ err, ¬ (fetchRelease noIdServer "v1").2 = Except.error err := by
  refine ⟨rfl, rfl, fun err h => ?_⟩
  rw [show (fetchRelease noIdServer "v1").2 = Except.ok noIdJson from rfl] at h
  exact Except.noConfusion h

/-- C3 amended: `fetchRelease` performs no schema validation — on a
successful HTTP response it returns the JSON payload unchanged, so missing
expected fields are merely absent in the returned structure and no error is
raised for a malformed payload. -/
theorem fetchRelease_ok_returns_payload (http : String → HttpResponse)
    (tag : String) (hok : (http (requestUrlFor tag)).ok = true) :
    (fetchRelease http tag).2 = Except.ok (http (requestUrlFor tag)).json := by
  simp [fetchRelease, hok]

/-- Witness for C3 amended: the ok server with the `id`-less payload gets
that payload back unchanged. -/
theorem fetchRelease_ok_returns_payload_witness :
    (fetchRelease noIdServer "v1.1").2 = Except.ok noIdJson :=
  fetchRelease_ok_returns_payload noIdServer "v1.1" rfl

end Net
